import Mathlib

/-!
Verification of the synchronization/diff engine of the ap-image-backup
repository, shallowly embedded from src/compare_engine.py and the queue
worker of src/ap-image-backup-gui.py.  Each Python function that a claim
depends on is translated into an executable Lean definition; stateful
operations become explicit state passing, machine integers become Nat/Int,
and fallible code returns Except.
-/

namespace ApBackup

/-! ## Path helpers (compare_engine.py lines 116-131, 191-211) -/

/-- Embeds the char-level effect of the Python string method
replace on a single-character separator, used by the source function
underscore-normalize-rel-path: every backslash becomes a forward slash. -/
def normalizeChars (cs : List Char) : List Char :=
  cs.map (fun c => if c = '\\' then '/' else c)

/-- Embeds str.split on the single character slash: the list of
slash-separated segments of a character list.  Splitting the empty list
yields one empty segment, exactly as in Python. -/
def splitSeg : List Char → List (List Char)
  | [] => [[]]
  | c :: rest =>
    let r := splitSeg rest
    if c = '/' then [] :: r
    else (c :: r.headD []) :: r.tail

/-- Embeds compare_engine underscore-target-from-rel-path (lines 127-130):
normalize separators, take the text before the first slash (the Python
source writes it as split with maxsplit 1, index 0), and substitute the
sentinel when that first segment is empty. -/
def targetFromRelPath (relPath : String) : String :=
  let first := (splitSeg (normalizeChars relPath.toList)).headD []
  if first.isEmpty then "(root)" else String.mk first

/-- Spec-side reading of the first path segment: the characters before the
first slash of the normalized path. -/
def firstSegmentChars (relPath : String) : List Char :=
  (normalizeChars relPath.toList).takeWhile (fun c => c ≠ '/')

theorem splitSeg_headD (cs : List Char) :
    (splitSeg cs).headD [] = cs.takeWhile (fun c => c ≠ '/') := by
  induction cs with
  | nil => rfl
  | cons c rest ih =>
    by_cases hc : c = '/'
    · subst hc
      simp [splitSeg, List.takeWhile]
    · have h1 : splitSeg (c :: rest) =
          (c :: (splitSeg rest).headD []) :: (splitSeg rest).tail := by
        simp [splitSeg, hc]
      rw [h1]
      simp only [List.headD_cons]
      rw [ih]
      simp [List.takeWhile, hc]

/-! ## Work-in-progress classification (compare_engine.py lines 22, 191-201) -/

/-- The fixed marker set WIP_PATTERNS from compare_engine.py line 22. -/
def WIP_PATTERNS : List String := ["WBPP", "Processing"]

/-- Substring containment on character lists, the embedding of the Python
membership test of one string inside another. -/
def hasSubChars (pat : List Char) : List Char → Bool
  | [] => pat.isEmpty
  | c :: rest => pat.isPrefixOf (c :: rest) || hasSubChars pat rest

/-- Lower-case every character of a component, as the Python lower method
does before the membership test. -/
def lowerChars (cs : List Char) : List Char :=
  cs.map Char.toLower

/-- Embeds underscore-is-wip-path (lines 191-193): lower-case every path
component, then ask whether any marker, itself lower-cased, occurs as a
substring of some component.  A path is given by its component list. -/
def isWipPath (parts : List String) : Bool :=
  (parts.map (fun part => lowerChars part.toList)).any
    (fun part => WIP_PATTERNS.any (fun pat => hasSubChars (lowerChars pat.toList) part))

/-- The compare mode enumeration from compare_engine.py lines 17-19. -/
inductive CompareMode where
  | IMAGES
  | WIP
deriving DecidableEq, Repr

/-- Embeds underscore-include-file (lines 196-201): IMAGES keeps exactly
the non-WIP paths, WIP keeps exactly the WIP paths. -/
def includeFile (parts : List String) (mode : CompareMode) : Bool :=
  match mode with
  | .IMAGES => !(isWipPath parts)
  | .WIP => isWipPath parts

/-- Modelled from the claim wording, for comparison with the source: a
case-sensitive substring match of the markers against each component. -/
def isWipPathCaseSensitive (parts : List String) : Bool :=
  parts.any (fun part => WIP_PATTERNS.any (fun pat => hasSubChars pat.toList part.toList))

/-! ## PullTargetResult (compare_engine.py lines 49-86) -/

/-- The per-target aggregate dataclass PullTargetResult with the fields the
status and recommendation functions read (lines 49-61).  Counts are Nat;
the epoch values are Int as in the source, where the dataclass defaults
them to 0. -/
structure PullTargetResult where
  target : String := ""
  nasFiles : Nat := 0
  localFiles : Nat := 0
  matchedFiles : Nat := 0
  missingLocallyFiles : Nat := 0
  differentFiles : Nat := 0
  localOnlyFiles : Nat := 0
  wipLocalOnlyFiles : Nat := 0
  missingLatestMtime : Int := 0
  lastPullTimestamp : Int := 0
deriving DecidableEq, Repr

/-- Embeds the status property (lines 63-73), first match wins. -/
def PullTargetResult.status (r : PullTargetResult) : String :=
  if r.nasFiles = 0 then "Empty on NAS"
  else if r.localFiles = 0 ∧ 0 < r.missingLocallyFiles then "Not pulled"
  else if 0 < r.missingLocallyFiles then "Partially pulled"
  else if 0 < r.differentFiles then "Local differs"
  else "Up to date"

/-- Embeds the recommended-action property (lines 75-85), first match
wins; note the source tests last-pull positive AND missing-latest-mtime
positive AND missing-latest-mtime at most last-pull. -/
def PullTargetResult.recommendedAction (r : PullTargetResult) : String :=
  if 0 < r.missingLocallyFiles then
    if 0 < r.lastPullTimestamp ∧ 0 < r.missingLatestMtime ∧
        r.missingLatestMtime ≤ r.lastPullTimestamp then
      "Delete on NAS (_Trash)"
    else "Pull to Local"
  else if 0 < r.localOnlyFiles then "Push to NAS"
  else if r.status = "Local differs" then "Pull to Local"
  else "No action"

/-- Modelled from the claim wording, for comparison with the source: the
decision table of the spec, which omits the requirement that the maximum
missing mtime be positive. -/
def recommendedActionClaimTable (r : PullTargetResult) : String :=
  if 0 < r.missingLocallyFiles then
    if 0 < r.lastPullTimestamp ∧ r.missingLatestMtime ≤ r.lastPullTimestamp then
      "Delete on NAS (_Trash)"
    else "Pull to Local"
  else if 0 < r.localOnlyFiles then "Push to NAS"
  else if r.status = "Local differs" then "Pull to Local"
  else "No action"

/-- The claim decision table amended with the positivity requirement on
the maximum missing mtime, written from the amended claim wording. -/
def recommendedActionAmendedTable (r : PullTargetResult) : String :=
  if 0 < r.missingLocallyFiles then
    if 0 < r.lastPullTimestamp ∧ 0 < r.missingLatestMtime ∧
        r.missingLatestMtime ≤ r.lastPullTimestamp then
      "Delete on NAS (_Trash)"
    else "Pull to Local"
  else if 0 < r.localOnlyFiles then "Push to NAS"
  else if r.status = "Local differs" then "Pull to Local"
  else "No action"

/-! ## Claims C7, C6, C2 -/

/-- Counterexample to claim C7: the bare filename has no parent segment,
yet the source derives the target as the filename itself, not the
sentinel. -/
theorem targetFromRelPath_bare_cex :
    targetFromRelPath "file.txt" = "file.txt" ∧ targetFromRelPath "file.txt" ≠ "(root)" := by
  constructor
  · rfl
  · decide

/-- Claim C7 (amended): the derived target is pure and deterministic and
equals the first path segment of the normalized relative path whenever
that segment is nonempty — a bare filename yields the filename itself —
and is the sentinel exactly when the first segment is empty. -/
theorem targetFromRelPath_amended :
    (∀ p : String, targetFromRelPath p =
      if firstSegmentChars p = [] then "(root)" else String.mk (firstSegmentChars p))
    ∧ targetFromRelPath "a/b/c" = "a"
    ∧ targetFromRelPath "file.txt" = "file.txt"
    ∧ targetFromRelPath "" = "(root)"
    ∧ targetFromRelPath "/x" = "(root)" := by
  refine ⟨?_, by decide, by decide, by decide, by decide⟩
  intro p
  simp only [targetFromRelPath, firstSegmentChars, splitSeg_headD, List.isEmpty_iff]

/-- Counterexample to claim C6: a lower-case spelling of a marker is
classified as work-in-progress by the source although no component
contains a marker with exact case. -/
theorem isWipPath_case_cex :
    isWipPath ["wbpp", "x.fits"] = true
    ∧ isWipPathCaseSensitive ["wbpp", "x.fits"] = false := by
  decide

/-- Claim C6 (amended): the work-in-progress classification is a
case-insensitive substring match against the fixed marker set — a path is
WIP exactly when some component contains a marker after lower-casing both
— and IMAGES mode includes exactly the non-WIP paths while WIP mode
includes only the WIP ones. -/
theorem isWipPath_amended :
    (∀ parts : List String, isWipPath parts = true ↔
      ∃ part ∈ parts, ∃ pat ∈ WIP_PATTERNS,
        hasSubChars (lowerChars pat.toList) (lowerChars part.toList) = true)
    ∧ (∀ parts, includeFile parts CompareMode.IMAGES = !(isWipPath parts))
    ∧ (∀ parts, includeFile parts CompareMode.WIP = isWipPath parts) := by
  refine ⟨?_, fun _ => rfl, fun _ => rfl⟩
  intro parts
  simp only [isWipPath, List.any_eq_true, List.mem_map]
  constructor
  · rintro ⟨lp, ⟨part, hpart, rfl⟩, pat, hpat, hsub⟩
    exact ⟨part, hpart, pat, hpat, hsub⟩
  · rintro ⟨part, hpart, pat, hpat, hsub⟩
    exact ⟨lowerChars part.toList, ⟨part, hpart, rfl⟩, pat, hpat, hsub⟩

/-- The concrete PullTargetResult refuting claim C2: one file missing
locally, a positive last-pull checkpoint, and a zero maximum missing
mtime. -/
def c2CexResult : PullTargetResult :=
  { target := "A", missingLocallyFiles := 1, missingLatestMtime := 0,
    lastPullTimestamp := 1000 }

/-- Counterexample to claim C2: a checkpoint exists and the maximum
missing mtime is at most the checkpoint, so the claim's decision table
demands the delete recommendation, yet the source recommends a pull
because it additionally requires the maximum missing mtime to be
positive. -/
theorem recommendedAction_claim_cex :
    c2CexResult.recommendedAction = "Pull to Local"
    ∧ recommendedActionClaimTable c2CexResult = "Delete on NAS (_Trash)"
    ∧ 0 < c2CexResult.missingLocallyFiles
    ∧ 0 < c2CexResult.lastPullTimestamp
    ∧ c2CexResult.missingLatestMtime ≤ c2CexResult.lastPullTimestamp := by
  decide

/-- Claim C2 (amended): recommended-action follows the spec decision
table amended so that the delete branch additionally requires the maximum
missing mtime to be positive; the two concrete instances of the claim
still hold.  The source strings read NAS for remote and underscore-Trash
for trash. -/
theorem recommendedAction_amended :
    (∀ r : PullTargetResult, r.recommendedAction = recommendedActionAmendedTable r)
    ∧ PullTargetResult.recommendedAction
        { target := "A", missingLocallyFiles := 3, lastPullTimestamp := 1000,
          missingLatestMtime := 500 } = "Delete on NAS (_Trash)"
    ∧ PullTargetResult.recommendedAction
        { target := "A", missingLocallyFiles := 3, lastPullTimestamp := 1000,
          missingLatestMtime := 1500 } = "Pull to Local" := by
  refine ⟨fun r => rfl, by decide, by decide⟩

/-! ## Metadata Index rebuilds (compare_engine.py lines 364-398, 454-508) -/

deriving instance DecidableEq for Except

/-- A row of the sqlite file-index table (schema at lines 133-145):
relative path, owning target, size in bytes, integer mtime. -/
structure IndexEntry where
  relPath : String
  target : String
  sizeBytes : Nat
  mtimeInt : Int
deriving DecidableEq, Repr

/-- The reserved filename of the serialized remote index
(compare_engine.py line 23). -/
def NAS_DB_FILENAME : String := "__ap_image_backup_nas_index.sqlite"

/-- A file met by the local tree walk: its normalized relative path and
the outcome of stat, where none embeds a raised OSError. -/
structure LocalFile where
  relPath : String
  statResult : Option (Nat × Int)
deriving DecidableEq, Repr

/-- The row refresh-local-index derives for one walked file: none when
the path lies under the private cache directory, otherwise the stat data
of the file. -/
def localRowOf (f : LocalFile) : Option IndexEntry :=
  if f.relPath.startsWith ".ap-image-backup/" then none
  else f.statResult.map (fun sm => ⟨f.relPath, targetFromRelPath f.relPath, sm.1, sm.2⟩)

/-- Embeds refresh-local-index (lines 364-398): walk the files in order,
skip the private cache directory, stat each file and collect one row per
file.  The source has no per-file exception handler in this loop, so a
failing stat propagates and the rebuild produces no index; the deletion
of the old rows is uncommitted at that point, hence rolled back. -/
def refreshLocalIndex : List LocalFile → Except Unit (List IndexEntry)
  | [] => .ok []
  | f :: rest =>
    if f.relPath.startsWith ".ap-image-backup/" then refreshLocalIndex rest
    else
      match f.statResult with
      | none => .error ()
      | some sm =>
        match refreshLocalIndex rest with
        | .error e => .error e
        | .ok rows => .ok (⟨f.relPath, targetFromRelPath f.relPath, sm.1, sm.2⟩ :: rows)

/-- A file met by the remote tree walk, with the outcome of the remote
stat call. -/
structure NasTreeFile where
  relPath : String
  statResult : Option (Nat × Int)
deriving DecidableEq, Repr

/-- The row rebuild-nas-index derives for one remote file: none for the
index artifact itself, otherwise the remote stat data. -/
def nasRowOf (f : NasTreeFile) : Option IndexEntry :=
  if f.relPath = NAS_DB_FILENAME then none
  else f.statResult.map (fun sm => ⟨f.relPath, targetFromRelPath f.relPath, sm.1, sm.2⟩)

/-- Embeds the row-collection loop of rebuild-nas-index (lines 454-491):
walk the remote files in order, skip the serialized index artifact, stat
each file and collect one row per file.  As in the local refresh, the
loop has no per-file exception handler, so one failing stat aborts the
whole rebuild. -/
def buildNasRows : List NasTreeFile → Except Unit (List IndexEntry)
  | [] => .ok []
  | f :: rest =>
    if f.relPath = NAS_DB_FILENAME then buildNasRows rest
    else
      match f.statResult with
      | none => .error ()
      | some sm =>
        match buildNasRows rest with
        | .error e => .error e
        | .ok rows => .ok (⟨f.relPath, targetFromRelPath f.relPath, sm.1, sm.2⟩ :: rows)

/-! ## Remote Index Synchronizer (compare_engine.py lines 411-549) -/

/-- The remote store: the walked tree of files and the serialized index
artifact.  The artifact is none when it is absent or its download fails
for any reason. -/
structure NasStore where
  files : List NasTreeFile
  indexArtifact : Option (List IndexEntry)
deriving DecidableEq, Repr

/-- Embeds download-nas-db-to-temp (lines 411-429): produce a local
working copy of the serialized artifact, or raise when the download fails
for any reason, file-not-found included. -/
def downloadNasDb (st : NasStore) : Except Unit (List IndexEntry) :=
  match st.indexArtifact with
  | some db => .ok db
  | none => .error ()

/-- Embeds rebuild-nas-index (lines 454-508): build the rows from a full
remote walk, then upload the result as the new artifact, returning the
row count.  A stat failure aborts before the upload. -/
def rebuildNasIndex (st : NasStore) : Except Unit (NasStore × Nat) :=
  match buildNasRows st.files with
  | .error e => .error e
  | .ok rows => .ok ({ st with indexArtifact := some rows }, rows.length)

/-- The download-or-fallback phase of get-or-build-nas-db (lines
529-549): try the download; on any failure, rebuild-and-upload and
download the just-uploaded copy. -/
def getOrBuildDownloadPhase (st : NasStore) : Except Unit (List IndexEntry) × NasStore :=
  match downloadNasDb st with
  | .ok db => (.ok db, st)
  | .error _ =>
    match rebuildNasIndex st with
    | .error e => (.error e, st)
    | .ok (st1, _) => (downloadNasDb st1, st1)

/-- Embeds get-or-build-nas-db (lines 511-549): when forced, rebuild and
upload first; then run the download-or-fallback phase. -/
def getOrBuildNasDb (forceRebuild : Bool) (st : NasStore) :
    Except Unit (List IndexEntry) × NasStore :=
  if forceRebuild then
    match rebuildNasIndex st with
    | .error e => (.error e, st)
    | .ok (st0, _) => getOrBuildDownloadPhase st0
  else getOrBuildDownloadPhase st

/-! ## Claims C5 and C4 -/

/-- The two-file local tree refuting claim C5: one readable file and one
file whose stat raises. -/
def c5DemoFiles : List LocalFile :=
  [⟨"A/ok.fits", some (100, 1000)⟩, ⟨"A/bad.fits", none⟩]

/-- Counterexample to claim C5: with one unreadable file in the walk the
whole local rebuild aborts with the propagated error instead of
continuing, so no index holding the remaining readable file is
produced. -/
theorem refreshLocalIndex_abort_cex :
    refreshLocalIndex c5DemoFiles = Except.error ()
    ∧ refreshLocalIndex c5DemoFiles ≠
        Except.ok [⟨"A/ok.fits", "A", 100, 1000⟩] := by
  decide

/-- Claim C5 (amended): in both index rebuilds a file that cannot be
stat'ed aborts the whole rebuild — the error propagates and no index is
produced — and when every non-excluded file can be stat'ed the rebuild
yields exactly one entry per remaining regular file, in walk order. -/
theorem rebuild_stat_failure_aborts :
    (∀ files : List LocalFile,
      (∀ f ∈ files, f.relPath.startsWith ".ap-image-backup/" = false → f.statResult ≠ none) →
      refreshLocalIndex files = .ok (files.filterMap localRowOf))
    ∧ (∀ files : List LocalFile, ∀ f ∈ files,
        f.relPath.startsWith ".ap-image-backup/" = false → f.statResult = none →
        refreshLocalIndex files = .error ())
    ∧ (∀ files : List NasTreeFile,
      (∀ f ∈ files, f.relPath ≠ NAS_DB_FILENAME → f.statResult ≠ none) →
      buildNasRows files = .ok (files.filterMap nasRowOf))
    ∧ (∀ files : List NasTreeFile, ∀ f ∈ files,
        f.relPath ≠ NAS_DB_FILENAME → f.statResult = none →
        buildNasRows files = .error ()) := by
  refine ⟨?_, ?_, ?_, ?_⟩
  · intro files h
    induction files with
    | nil => rfl
    | cons f rest ih =>
      have hrest : ∀ g ∈ rest, g.relPath.startsWith ".ap-image-backup/" = false →
          g.statResult ≠ none :=
        fun g hg => h g (List.mem_cons_of_mem _ hg)
      have hf := h f (List.mem_cons_self _ _)
      by_cases hs : f.relPath.startsWith ".ap-image-backup/" = true
      · simp [refreshLocalIndex, hs, localRowOf, ih hrest]
      · have hs' : f.relPath.startsWith ".ap-image-backup/" = false :=
          Bool.eq_false_iff.mpr hs
        cases hstat : f.statResult with
        | none => exact absurd hstat (hf hs')
        | some sm =>
          simp [refreshLocalIndex, hs, hstat, ih hrest, localRowOf]
  · intro files
    induction files with
    | nil => intro f hmem; cases hmem
    | cons g rest ih =>
      intro f hmem hexc hnone
      rcases List.mem_cons.mp hmem with rfl | hmem'
      · simp [refreshLocalIndex, hexc, hnone]
      · by_cases hs : g.relPath.startsWith ".ap-image-backup/" = true
        · simpa [refreshLocalIndex, hs] using ih f hmem' hexc hnone
        · cases hstat : g.statResult with
          | none => simp [refreshLocalIndex, hs, hstat]
          | some sm => simp [refreshLocalIndex, hs, hstat, ih f hmem' hexc hnone]
  · intro files h
    induction files with
    | nil => rfl
    | cons f rest ih =>
      have hrest : ∀ g ∈ rest, g.relPath ≠ NAS_DB_FILENAME → g.statResult ≠ none :=
        fun g hg => h g (List.mem_cons_of_mem _ hg)
      have hf := h f (List.mem_cons_self _ _)
      by_cases hs : f.relPath = NAS_DB_FILENAME
      · simp [buildNasRows, hs, nasRowOf, ih hrest]
      · cases hstat : f.statResult with
        | none => exact absurd hstat (hf hs)
        | some sm =>
          simp [buildNasRows, hs, hstat, ih hrest, nasRowOf]
  · intro files
    induction files with
    | nil => intro f hmem; cases hmem
    | cons g rest ih =>
      intro f hmem hexc hnone
      rcases List.mem_cons.mp hmem with rfl | hmem'
      · simp [buildNasRows, hexc, hnone]
      · by_cases hs : g.relPath = NAS_DB_FILENAME
        · simpa [buildNasRows, hs] using ih f hmem' hexc hnone
        · cases hstat : g.statResult with
          | none => simp [buildNasRows, hs, hstat]
          | some sm => simp [buildNasRows, hs, hstat, ih f hmem' hexc hnone]

/-- Witness for the amended claim C5 at concrete trees: one readable
tree rebuilds to its one row, and one tree holding an unreadable file
aborts. -/
theorem rebuild_stat_failure_aborts_witness :
    refreshLocalIndex [⟨"A/a.fits", some (1, 2)⟩]
      = .ok ([(⟨"A/a.fits", some (1, 2)⟩ : LocalFile)].filterMap localRowOf)
    ∧ refreshLocalIndex [⟨"A/bad.fits", none⟩] = .error () :=
  ⟨rebuild_stat_failure_aborts.1 [⟨"A/a.fits", some (1, 2)⟩] (by decide),
   rebuild_stat_failure_aborts.2.1 [⟨"A/bad.fits", none⟩] ⟨"A/bad.fits", none⟩
     (by decide) (by decide) rfl⟩

/-- Claim C4: with force-rebuild false and a failing artifact download,
the synchronizer rebuilds the index from a full remote walk, uploads it,
and returns the just-uploaded rows as the working copy. -/
theorem getOrBuildNasDb_fallback (st : NasStore) (rows : List IndexEntry)
    (hdl : st.indexArtifact = none) (hrows : buildNasRows st.files = .ok rows) :
    getOrBuildNasDb false st =
      (.ok rows, { st with indexArtifact := some rows }) := by
  simp [getOrBuildNasDb, getOrBuildDownloadPhase, downloadNasDb, rebuildNasIndex, hdl, hrows]

/-- Witness for claim C4 at a concrete store with one remote file and no
artifact. -/
theorem getOrBuildNasDb_fallback_witness :
    getOrBuildNasDb false ⟨[⟨"A/f.fits", some (10, 100)⟩], none⟩
      = (.ok [⟨"A/f.fits", "A", 10, 100⟩],
         ⟨[⟨"A/f.fits", some (10, 100)⟩], some [⟨"A/f.fits", "A", 10, 100⟩]⟩) :=
  getOrBuildNasDb_fallback _ _ rfl (by decide)

/-! ## Pull copy loop (compare_engine.py lines 306-361, 753-861) -/

/-- A file of a remote subtree being pulled: the local destination path
it maps to, and the remote size and integer mtime reported by stat. -/
structure RemoteFile where
  destPath : String
  size : Nat
  mtime : Int
deriving DecidableEq, Repr

/-- The local filesystem as the copy loop observes it: per path, the size
and integer mtime of the file stored there, if any. -/
abbrev LocalFS : Type := String → Option (Nat × Int)

/-- Writing a file: afterwards the path holds the given size and mtime. -/
def fsUpdate (fs : LocalFS) (p : String) (v : Nat × Int) : LocalFS :=
  fun q => if q = p then some v else fs q

/-- One iteration of the copy loop of copy-smb-tree-to-local (lines
326-359): skip when an existing local file has the remote size and mtime;
otherwise write the remote bytes — giving the local file the remote size
— and stamp the remote mtime on it with os.utime. -/
def copyStep (st : LocalFS × Nat × Nat) (f : RemoteFile) : LocalFS × Nat × Nat :=
  match st.1 f.destPath with
  | some sm =>
    if sm.1 = f.size ∧ sm.2 = f.mtime then (st.1, st.2.1, st.2.2 + 1)
    else (fsUpdate st.1 f.destPath (f.size, f.mtime), st.2.1 + 1, st.2.2)
  | none => (fsUpdate st.1 f.destPath (f.size, f.mtime), st.2.1 + 1, st.2.2)

/-- Embeds copy-smb-tree-to-local (lines 306-361) over the walked file
list, threading the copied and skipped counters exactly as the source
passes them in.  The result is the filesystem, the copied count and the
skipped count. -/
def copySmbTreeToLocal (files : List RemoteFile) (fs : LocalFS) (copied skipped : Nat) :
    LocalFS × Nat × Nat :=
  files.foldl copyStep (fs, copied, skipped)

/-- Embeds pull-target-from-nas (lines 753-861): copy the target subtree,
then each requested flats subtree, summing the per-tree copied and
skipped counts as the source does. -/
def pullTargetFromNas (lights : List RemoteFile) (flatTrees : List (List RemoteFile))
    (fs : LocalFS) : LocalFS × Nat × Nat :=
  let first := copySmbTreeToLocal lights fs 0 0
  flatTrees.foldl
    (fun acc tree =>
      let r := copySmbTreeToLocal tree acc.1 0 0
      (r.1, acc.2.1 + r.2.1, acc.2.2 + r.2.2))
    first

/-- The filesystem already agrees with every listed remote file. -/
def syncedOn (fs : LocalFS) (files : List RemoteFile) : Prop :=
  ∀ f ∈ files, fs f.destPath = some (f.size, f.mtime)

theorem copySmbTreeToLocal_cons (f : RemoteFile) (rest : List RemoteFile)
    (fs : LocalFS) (c s : Nat) :
    copySmbTreeToLocal (f :: rest) fs c s =
      copySmbTreeToLocal rest (copyStep (fs, c, s) f).1
        (copyStep (fs, c, s) f).2.1 (copyStep (fs, c, s) f).2.2 := rfl

theorem copyStep_fst_ne (st : LocalFS × Nat × Nat) (f : RemoteFile) (p : String)
    (hp : p ≠ f.destPath) : (copyStep st f).1 p = st.1 p := by
  unfold copyStep
  cases h : st.1 f.destPath with
  | none => simp [fsUpdate, hp]
  | some sm =>
    by_cases hc : sm.1 = f.size ∧ sm.2 = f.mtime <;> simp [hc, fsUpdate, hp]

theorem copyStep_fst_self (st : LocalFS × Nat × Nat) (g : RemoteFile) :
    (copyStep st g).1 g.destPath = some (g.size, g.mtime) := by
  unfold copyStep
  cases h : st.1 g.destPath with
  | none => simp [fsUpdate]
  | some sm =>
    obtain ⟨a, b⟩ := sm
    by_cases hc : a = g.size ∧ b = g.mtime
    · obtain ⟨rfl, rfl⟩ := hc
      simpa using h
    · simp [hc, fsUpdate]

theorem copyStep_decomp (fs : LocalFS) (c s : Nat) (g : RemoteFile) :
    copyStep (fs, c, s) g =
      ((copyStep (fs, 0, 0) g).1,
       c + (copyStep (fs, 0, 0) g).2.1,
       s + (copyStep (fs, 0, 0) g).2.2) := by
  unfold copyStep
  cases h : fs g.destPath with
  | none => simp [h]
  | some sm => by_cases hc : sm.1 = g.size ∧ sm.2 = g.mtime <;> simp [h, hc]

theorem copySmbTreeToLocal_frame (files : List RemoteFile) (p : String)
    (hp : p ∉ files.map RemoteFile.destPath) :
    ∀ fs c s, (copySmbTreeToLocal files fs c s).1 p = fs p := by
  induction files with
  | nil => intro fs c s; rfl
  | cons f rest ih =>
    intro fs c s
    have hpf : p ≠ f.destPath := by
      intro h; exact hp (by simp [h])
    have hprest : p ∉ rest.map RemoteFile.destPath := by
      intro h; exact hp (by simp [List.mem_map] at h ⊢; exact Or.inr h)
    rw [copySmbTreeToLocal_cons, ih hprest, copyStep_fst_ne _ _ _ hpf]

theorem copySmbTreeToLocal_synced (files : List RemoteFile)
    (hnd : (files.map RemoteFile.destPath).Nodup) :
    ∀ fs c s, syncedOn (copySmbTreeToLocal files fs c s).1 files := by
  induction files with
  | nil => intro fs c s f hf; cases hf
  | cons g rest ih =>
    intro fs c s f hf
    rw [List.map_cons, List.nodup_cons] at hnd
    rcases List.mem_cons.mp hf with rfl | hf'
    · rw [copySmbTreeToLocal_cons, copySmbTreeToLocal_frame rest f.destPath hnd.1]
      exact copyStep_fst_self _ _
    · rw [copySmbTreeToLocal_cons]
      exact ih hnd.2 _ _ _ f hf'

theorem copySmbTreeToLocal_noop (files : List RemoteFile) :
    ∀ fs c s, syncedOn fs files →
      copySmbTreeToLocal files fs c s = (fs, c, s + files.length) := by
  induction files with
  | nil => intro fs c s _; rfl
  | cons g rest ih =>
    intro fs c s hsync
    have hg := hsync g (List.mem_cons_self _ _)
    have hstep : copyStep (fs, c, s) g = (fs, c, s + 1) := by
      unfold copyStep
      simp [hg]
    rw [copySmbTreeToLocal_cons, hstep]
    have hsync' : syncedOn fs rest := fun f hf => hsync f (List.mem_cons_of_mem _ hf)
    rw [ih fs c (s + 1) hsync']
    simp [Nat.add_assoc, Nat.add_comm 1 rest.length]

theorem copySmbTreeToLocal_offset (files : List RemoteFile) :
    ∀ fs c s, copySmbTreeToLocal files fs c s =
      ((copySmbTreeToLocal files fs 0 0).1,
       c + (copySmbTreeToLocal files fs 0 0).2.1,
       s + (copySmbTreeToLocal files fs 0 0).2.2) := by
  induction files with
  | nil => intro fs c s; rfl
  | cons g rest ih =>
    intro fs c s
    rw [copySmbTreeToLocal_cons, copySmbTreeToLocal_cons, copyStep_decomp]
    rw [ih (copyStep (fs, 0, 0) g).1 (c + (copyStep (fs, 0, 0) g).2.1)
      (s + (copyStep (fs, 0, 0) g).2.2)]
    rw [ih (copyStep (fs, 0, 0) g).1 (copyStep (fs, 0, 0) g).2.1
      (copyStep (fs, 0, 0) g).2.2]
    simp [Nat.add_assoc]

theorem copySmbTreeToLocal_append (as bs : List RemoteFile) (fs : LocalFS) (c s : Nat) :
    copySmbTreeToLocal (as ++ bs) fs c s =
      copySmbTreeToLocal bs (copySmbTreeToLocal as fs c s).1
        (copySmbTreeToLocal as fs c s).2.1 (copySmbTreeToLocal as fs c s).2.2 := by
  simp [copySmbTreeToLocal, List.foldl_append]

theorem pullFoldJoin (trees : List (List RemoteFile)) :
    ∀ st : LocalFS × Nat × Nat,
      trees.foldl
        (fun acc tree =>
          let r := copySmbTreeToLocal tree acc.1 0 0
          (r.1, acc.2.1 + r.2.1, acc.2.2 + r.2.2)) st
      = copySmbTreeToLocal trees.flatten st.1 st.2.1 st.2.2 := by
  induction trees with
  | nil => intro st; rfl
  | cons t rest ih =>
    intro st
    simp only [List.foldl_cons, List.flatten_cons]
    rw [ih, copySmbTreeToLocal_append,
      copySmbTreeToLocal_offset t st.1 st.2.1 st.2.2]

theorem pullTargetFromNas_eq_join (lights : List RemoteFile)
    (flatTrees : List (List RemoteFile)) (fs : LocalFS) :
    pullTargetFromNas lights flatTrees fs =
      copySmbTreeToLocal (lights ++ flatTrees.flatten) fs 0 0 := by
  unfold pullTargetFromNas
  rw [pullFoldJoin, copySmbTreeToLocal_append]

/-- Claim C3: pull is idempotent.  With distinct destination paths across
the pulled trees and no intervening remote change, the second run copies
zero files, skips every file as identical under the size+mtime test, and
leaves the local filesystem untouched, because the first run stamped the
remote mtime on each copied file. -/
theorem pull_idempotent (lights : List RemoteFile) (flats : List (List RemoteFile))
    (fs : LocalFS)
    (hnd : ((lights ++ flats.flatten).map RemoteFile.destPath).Nodup) :
    (pullTargetFromNas lights flats (pullTargetFromNas lights flats fs).1).2.1 = 0
    ∧ (pullTargetFromNas lights flats (pullTargetFromNas lights flats fs).1).2.2
        = lights.length + (flats.map List.length).sum
    ∧ (pullTargetFromNas lights flats (pullTargetFromNas lights flats fs).1).1
        = (pullTargetFromNas lights flats fs).1 := by
  rw [pullTargetFromNas_eq_join, pullTargetFromNas_eq_join]
  have h1 : syncedOn (copySmbTreeToLocal (lights ++ flats.flatten) fs 0 0).1
      (lights ++ flats.flatten) :=
    copySmbTreeToLocal_synced _ hnd fs 0 0
  rw [copySmbTreeToLocal_noop _ _ 0 0 h1]
  simp [List.length_append, List.length_flatten]

/-- Witness for claim C3 at a one-file target tree plus a one-file flats
tree over an initially empty local filesystem. -/
theorem pull_idempotent_witness :
    (pullTargetFromNas [⟨"A/1.fits", 100, 1000⟩] [[⟨"F/f1.fits", 50, 2000⟩]]
        (pullTargetFromNas [⟨"A/1.fits", 100, 1000⟩] [[⟨"F/f1.fits", 50, 2000⟩]]
          (fun _ => none)).1).2.1 = 0
    ∧ (pullTargetFromNas [⟨"A/1.fits", 100, 1000⟩] [[⟨"F/f1.fits", 50, 2000⟩]]
        (pullTargetFromNas [⟨"A/1.fits", 100, 1000⟩] [[⟨"F/f1.fits", 50, 2000⟩]]
          (fun _ => none)).1).2.2
        = [(⟨"A/1.fits", 100, 1000⟩ : RemoteFile)].length
          + ([[(⟨"F/f1.fits", 50, 2000⟩ : RemoteFile)]].map List.length).sum
    ∧ (pullTargetFromNas [⟨"A/1.fits", 100, 1000⟩] [[⟨"F/f1.fits", 50, 2000⟩]]
        (pullTargetFromNas [⟨"A/1.fits", 100, 1000⟩] [[⟨"F/f1.fits", 50, 2000⟩]]
          (fun _ => none)).1).1
        = (pullTargetFromNas [⟨"A/1.fits", 100, 1000⟩] [[⟨"F/f1.fits", 50, 2000⟩]]
          (fun _ => none)).1 :=
  pull_idempotent [⟨"A/1.fits", 100, 1000⟩] [[⟨"F/f1.fits", 50, 2000⟩]]
    (fun _ => none) (by decide)

/-! ## Target State Store (compare_engine.py lines 154-188) -/

/-- A JSON value stored under a top-level key of the target-state record:
either the per-target pull-checkpoint dictionary, or some other value
(numbers and strings stand in for arbitrary non-dictionary JSON). -/
inductive SVal where
  | pulls (entries : List (String × Int))
  | num (n : Int)
  | str (s : String)
deriving DecidableEq, Repr

/-- The loaded target-state record: top-level keys in insertion order, as
a Python dict holds them. -/
abbrev TargetState : Type := List (String × SVal)

/-- First-match lookup of an association list, the embedding of Python
dict indexing (keys are unique in a dict, so first match is the match). -/
def lookupAssoc {α : Type} : List (String × α) → String → Option α
  | [], _ => none
  | (k0, v0) :: rest, k => if k0 = k then some v0 else lookupAssoc rest k

/-- Python dict assignment: update the value of an existing key in place,
preserving order, or append the new key at the end. -/
def setAssoc {α : Type} (l : List (String × α)) (k : String) (v : α) :
    List (String × α) :=
  if l.any (fun kv => kv.1 = k) then
    l.map (fun kv => if kv.1 = k then (k, v) else kv)
  else l ++ [(k, v)]

/-- Embeds the read of the pull dictionary: state.get of the
last-successful-pull key defaulting to an empty dict, replaced by an
empty dict when the stored value is not a dict (mark-target-pulled lines
182-184, and the same guard in delete-nas-only-to-trash line 980). -/
def getPullsOf (st : TargetState) : List (String × Int) :=
  match lookupAssoc st "last_successful_pull" with
  | some (.pulls m) => m
  | _ => []

/-- Embeds mark-target-pulled (lines 180-188): read the pull dictionary,
set the entry of the given target to the given timestamp — or the
current time when none is given — and store the dictionary back under
the last-successful-pull key. -/
def markTargetPulled (st : TargetState) (target : String) (timestamp : Option Int)
    (now : Int) : TargetState :=
  let pulls := getPullsOf st
  let pulls2 := setAssoc pulls target (timestamp.getD now)
  setAssoc st "last_successful_pull" (SVal.pulls pulls2)

theorem lookupAssoc_mapSet_self {α : Type} (l : List (String × α)) (k : String) (v : α)
    (hany : l.any (fun kv => kv.1 = k) = true) :
    lookupAssoc (l.map (fun kv => if kv.1 = k then (k, v) else kv)) k = some v := by
  induction l with
  | nil => cases hany
  | cons kv rest ih =>
    simp only [List.map_cons]
    by_cases hk : kv.1 = k
    · rw [if_pos hk]
      simp [lookupAssoc]
    · rw [if_neg hk]
      have hrest : rest.any (fun kv => kv.1 = k) = true := by
        simp only [List.any_cons, Bool.or_eq_true] at hany
        rcases hany with h | h
        · exact absurd (of_decide_eq_true h) hk
        · exact h
      simp only [lookupAssoc, if_neg hk]
      exact ih hrest

theorem lookupAssoc_mapSet_ne {α : Type} (l : List (String × α)) (k k2 : String) (v : α)
    (hne : k2 ≠ k) :
    lookupAssoc (l.map (fun kv => if kv.1 = k then (k, v) else kv)) k2
      = lookupAssoc l k2 := by
  induction l with
  | nil => rfl
  | cons kv rest ih =>
    simp only [List.map_cons]
    by_cases hk : kv.1 = k
    · rw [if_pos hk]
      have h1 : ¬ (k = k2) := fun h => hne h.symm
      have h2 : ¬ (kv.1 = k2) := by rw [hk]; exact h1
      simp only [lookupAssoc, if_neg h1, if_neg h2]
      exact ih
    · rw [if_neg hk]
      simp only [lookupAssoc]
      by_cases hk2 : kv.1 = k2
      · rw [if_pos hk2, if_pos hk2]
      · rw [if_neg hk2, if_neg hk2]
        exact ih

theorem lookupAssoc_none_of_any_false {α : Type} (l : List (String × α)) (k : String)
    (hany : l.any (fun kv => kv.1 = k) = false) :
    lookupAssoc l k = none := by
  induction l with
  | nil => rfl
  | cons kv rest ih =>
    simp only [List.any_cons, Bool.or_eq_false_iff] at hany
    have hk : ¬ kv.1 = k := by simpa using hany.1
    simp only [lookupAssoc, if_neg hk]
    exact ih hany.2

theorem lookupAssoc_append_sing_self {α : Type} (l : List (String × α)) (k : String)
    (v : α) (hnone : lookupAssoc l k = none) :
    lookupAssoc (l ++ [(k, v)]) k = some v := by
  induction l with
  | nil => simp [lookupAssoc]
  | cons kv rest ih =>
    by_cases hk : kv.1 = k
    · simp [lookupAssoc, hk] at hnone
    · simp only [List.cons_append, lookupAssoc, if_neg hk] at hnone ⊢
      exact ih hnone

theorem lookupAssoc_append_sing_ne {α : Type} (l : List (String × α)) (k k2 : String)
    (v : α) (hne : k2 ≠ k) :
    lookupAssoc (l ++ [(k, v)]) k2 = lookupAssoc l k2 := by
  induction l with
  | nil =>
    have h : ¬ (k = k2) := fun h => hne h.symm
    simp [lookupAssoc, h]
  | cons kv rest ih =>
    by_cases hk2 : kv.1 = k2
    · simp only [List.cons_append, lookupAssoc, if_pos hk2]
    · simp only [List.cons_append, lookupAssoc, if_neg hk2]
      exact ih

theorem lookupAssoc_setAssoc_self {α : Type} (l : List (String × α)) (k : String) (v : α) :
    lookupAssoc (setAssoc l k v) k = some v := by
  unfold setAssoc
  by_cases hany : l.any (fun kv => kv.1 = k) = true
  · rw [if_pos hany]
    exact lookupAssoc_mapSet_self l k v hany
  · rw [if_neg hany]
    exact lookupAssoc_append_sing_self l k v
      (lookupAssoc_none_of_any_false l k (Bool.eq_false_iff.mpr hany))

theorem lookupAssoc_setAssoc_ne {α : Type} (l : List (String × α)) (k k2 : String)
    (v : α) (hne : k2 ≠ k) : lookupAssoc (setAssoc l k v) k2 = lookupAssoc l k2 := by
  unfold setAssoc
  by_cases hany : l.any (fun kv => kv.1 = k) = true
  · rw [if_pos hany]
    exact lookupAssoc_mapSet_ne l k k2 v hne
  · rw [if_neg hany]
    exact lookupAssoc_append_sing_ne l k k2 v hne

/-- Claim C10: mark-target-pulled is frame-preserving.  It leaves every
top-level key other than last-successful-pull unchanged, leaves every
other target's checkpoint unchanged, and stores exactly the given
timestamp — or the current time when none is given — for the target. -/
theorem markTargetPulled_frame (st : TargetState) (target : String)
    (timestamp : Option Int) (now : Int) :
    (∀ k, k ≠ "last_successful_pull" →
      lookupAssoc (markTargetPulled st target timestamp now) k = lookupAssoc st k)
    ∧ (∀ t, t ≠ target →
      lookupAssoc (getPullsOf (markTargetPulled st target timestamp now)) t
        = lookupAssoc (getPullsOf st) t)
    ∧ lookupAssoc (getPullsOf (markTargetPulled st target timestamp now)) target
        = some (timestamp.getD now) := by
  have hpulls : getPullsOf (markTargetPulled st target timestamp now)
      = setAssoc (getPullsOf st) target (timestamp.getD now) := by
    unfold markTargetPulled getPullsOf
    rw [lookupAssoc_setAssoc_self]
  refine ⟨?_, ?_, ?_⟩
  · intro k hk
    exact lookupAssoc_setAssoc_ne st "last_successful_pull" k _ hk
  · intro t ht
    rw [hpulls]
    exact lookupAssoc_setAssoc_ne _ target t _ ht
  · rw [hpulls]
    exact lookupAssoc_setAssoc_self _ _ _

/-- Witness for claim C10 at a concrete state holding one unrelated key
and one other target's checkpoint. -/
theorem markTargetPulled_frame_witness :
    lookupAssoc (markTargetPulled
        [("schema", SVal.num 1), ("last_successful_pull", SVal.pulls [("B", 500)])]
        "A" (some 1700) 9999) "schema"
      = lookupAssoc
        [("schema", SVal.num 1), ("last_successful_pull", SVal.pulls [("B", 500)])] "schema"
    ∧ lookupAssoc (getPullsOf (markTargetPulled
        [("schema", SVal.num 1), ("last_successful_pull", SVal.pulls [("B", 500)])]
        "A" (some 1700) 9999)) "B"
      = lookupAssoc (getPullsOf
        [("schema", SVal.num 1), ("last_successful_pull", SVal.pulls [("B", 500)])]) "B"
    ∧ lookupAssoc (getPullsOf (markTargetPulled
        [("schema", SVal.num 1), ("last_successful_pull", SVal.pulls [("B", 500)])]
        "A" (some 1700) 9999)) "A"
      = some ((some (1700 : Int)).getD 9999) :=
  ⟨(markTargetPulled_frame _ "A" (some 1700) 9999).1 "schema" (by decide),
   (markTargetPulled_frame _ "A" (some 1700) 9999).2.1 "B" (by decide),
   (markTargetPulled_frame _ "A" (some 1700) 9999).2.2⟩

/-! ## Delete-to-trash (compare_engine.py lines 968-1119) -/

/-- The checkpoint the delete reads (line 981): the recorded pull epoch
of the target, defaulting to 0 when absent or when the stored value is
not a dictionary. -/
def lastPullOf (st : TargetState) (target : String) : Int :=
  (lookupAssoc (getPullsOf st) target).getD 0

/-- The state delete-nas-only-to-trash touches: the remote store (tree
plus serialized index artifact), the local tree, the persisted local
index, the remote trash area — as the original relative paths of moved
files — and the target-state record.  Remote directory pruning and the
per-run log are elided: they touch neither tree files, trash content,
indexes nor state. -/
structure DeleteWorld where
  store : NasStore
  localFiles : List LocalFile
  localDb : List IndexEntry
  trash : List String
  targetState : TargetState
deriving DecidableEq, Repr

/-- The outcome of a delete run: the world after the run and either the
moved-file count or the raised error. -/
structure DeleteOutcome where
  world : DeleteWorld
  result : Except String Nat
deriving DecidableEq, Repr

/-- Embeds delete-nas-only-to-trash (lines 968-1119): check the
checkpoint gate first and raise before any action when it fails; then
refresh the local index, pull the remote index, select the remote-only
candidates of the target — all of them when forced, those at or before
the checkpoint when gated — move each candidate to the trash area, and
when any candidate was selected delete the candidate rows from a freshly
pulled remote index and republish it. -/
def deleteNasOnlyToTrash (w : DeleteWorld) (target : String) (requireCk : Bool) :
    DeleteOutcome :=
  if requireCk ∧ lastPullOf w.targetState target ≤ 0 then
    ⟨w, .error "no last successful pull timestamp"⟩
  else
    match refreshLocalIndex w.localFiles with
    | .error _ => ⟨w, .error "local refresh failed"⟩
    | .ok localRows =>
      let w1 : DeleteWorld := { w with localDb := localRows }
      match getOrBuildNasDb false w1.store with
      | (.error _, store1) => ⟨{ w1 with store := store1 }, .error "nas index unavailable"⟩
      | (.ok nasRows, store1) =>
        let localPaths := localRows.map IndexEntry.relPath
        let candidates := nasRows.filterMap (fun e =>
          if e.target = target ∧ ¬ (e.relPath ∈ localPaths)
              ∧ (requireCk = false ∨ e.mtimeInt ≤ lastPullOf w.targetState target)
          then some e.relPath else none)
        let files2 := store1.files.filter (fun f => !(candidates.contains f.relPath))
        let trash2 := w.trash ++ candidates
        if candidates.isEmpty then
          ⟨{ w1 with store := { store1 with files := files2 }, trash := trash2 }, .ok 0⟩
        else
          match getOrBuildNasDb false { store1 with files := files2 } with
          | (.error _, store2) =>
            ⟨{ w1 with store := store2, trash := trash2 }, .error "nas index unavailable"⟩
          | (.ok rows2, store2) =>
            ⟨{ w1 with
                store := { store2 with
                  indexArtifact := some (rows2.filter (fun e => !(candidates.contains e.relPath))) },
                trash := trash2 },
              .ok candidates.length⟩

/-- Claim C1: gated delete with no recorded positive checkpoint for the
target fails the whole operation with an error raised before any
destructive action — the remote tree, the trash area, both indexes and
the target state are all left exactly as they were. -/
theorem deleteNasOnlyToTrash_gated (w : DeleteWorld) (target : String)
    (h : lastPullOf w.targetState target ≤ 0) :
    deleteNasOnlyToTrash w target true =
      ⟨w, .error "no last successful pull timestamp"⟩ := by
  unfold deleteNasOnlyToTrash
  rw [if_pos ⟨rfl, h⟩]

/-- Witness for claim C1 at a world with one remote-only file, a present
remote index artifact and an empty target-state record. -/
theorem deleteNasOnlyToTrash_gated_witness :
    deleteNasOnlyToTrash
      ⟨⟨[⟨"A/x.fits", some (5, 50)⟩], some [⟨"A/x.fits", "A", 5, 50⟩]⟩,
        [], [], [], []⟩ "A" true =
      ⟨⟨⟨[⟨"A/x.fits", some (5, 50)⟩], some [⟨"A/x.fits", "A", 5, 50⟩]⟩,
        [], [], [], []⟩, .error "no last successful pull timestamp"⟩ :=
  deleteNasOnlyToTrash_gated _ "A" (by decide)

/-! ## Transient working-copy cleanup (compare_engine.py lines 552-608,
661-750, 968-1103) -/

/-- Whether a run of an operation completed or raised. -/
inductive OpResult where
  | ok
  | raised
deriving DecidableEq, Repr

/-- The fate of the transient local working copy of the remote index
pulled by an operation: the run outcome and whether the copy was deleted
by the time the operation exited. -/
structure TempFate where
  result : OpResult
  tempDeleted : Bool
deriving DecidableEq, Repr

/-- Embeds the cleanup structure of scan-nas-pull-candidates (lines
685-750): everything after the download sits in a try block whose
finally clause unlinks the working copy, so the copy is deleted whether
the body completes or raises. -/
def scanNasPullCandidatesTempFate (bodyRaises : Bool) : TempFate :=
  if bodyRaises then ⟨.raised, true⟩ else ⟨.ok, true⟩

/-- Embeds the cleanup structure of upsert-nas-index-entries (lines
563-608): the sqlite mutation runs under a try whose finally only closes
the connection, the upload follows outside any finally, and the unlink
comes last — so a raise during mutation or upload propagates past the
unlink and the working copy survives. -/
def upsertNasIndexEntriesTempFate (mutateRaises uploadRaises : Bool) : TempFate :=
  if mutateRaises then ⟨.raised, false⟩
  else if uploadRaises then ⟨.raised, false⟩
  else ⟨.ok, true⟩

/-- Embeds the cleanup structure of delete-nas-only-to-trash (lines
986-1103) for the working copy downloaded at line 986: its unlink at line
1100 is not inside any finally, so a raise escaping the move loop (for
example from the progress callback), a failing second index fetch or a
failing re-upload all leave the copy behind. -/
def deleteNasOnlyToTrashTempFate (moveLoopRaises hasCandidates secondFetchRaises
    uploadRaises : Bool) : TempFate :=
  if moveLoopRaises then ⟨.raised, false⟩
  else if hasCandidates then
    if secondFetchRaises then ⟨.raised, false⟩
    else if uploadRaises then ⟨.raised, false⟩
    else ⟨.ok, true⟩
  else ⟨.ok, true⟩

/-- Counterexample to claim C8: when the re-upload of the mutated index
raises, the index upsert exits without deleting its transient working
copy. -/
theorem upsert_temp_leak_cex :
    (upsertNasIndexEntriesTempFate false true).result = OpResult.raised
    ∧ (upsertNasIndexEntriesTempFate false true).tempDeleted = false := by
  decide

/-- Claim C8 (amended): only the pull-candidate scan deletes its
transient working copy on every exit path; index upsert and
delete-to-trash delete it exactly when the operation completes without
raising — a raise during mutation, the second fetch or the re-upload
leaves the copy behind. -/
theorem temp_cleanup_amended :
    (∀ b, (scanNasPullCandidatesTempFate b).tempDeleted = true)
    ∧ (∀ m u, (upsertNasIndexEntriesTempFate m u).tempDeleted = true
        ↔ (upsertNasIndexEntriesTempFate m u).result = OpResult.ok)
    ∧ (∀ a b c d, (deleteNasOnlyToTrashTempFate a b c d).tempDeleted = true
        ↔ (deleteNasOnlyToTrashTempFate a b c d).result = OpResult.ok) := by
  refine ⟨?_, ?_, ?_⟩ <;> decide

/-! ## Queue Runner (ap-image-backup-gui.py lines 164-238) -/

/-- One enqueued work item: the target, the action tag and the
include-flats option. -/
structure QueueEntry where
  target : String
  action : String
  includeFlats : Bool
deriving DecidableEq, Repr

/-- The signals QueueWorker.run emits: the current/next queue position
announcement, per-item completion, the failure message, and the terminal
finished signal.  Mid-item progress signals come from inside the engine
calls and are abstracted away. -/
inductive QueueSignal where
  | queuePosition (current next : String)
  | itemFinished (target : String)
  | failed (message : String)
  | finished
deriving DecidableEq, Repr

/-- The action tags the dispatch recognizes (gui lines 185-227). -/
def knownQueueActions : List String := ["pull", "push", "delete", "delete_force"]

/-- Embeds the dispatch of one item (gui lines 185-229): a recognized tag
runs the corresponding engine call — abstracted as the executor — and an
unrecognized tag raises ValueError. -/
def dispatchQueueEntry (exec : QueueEntry → Except String Unit) (e : QueueEntry) :
    Except String Unit :=
  if e.action ∈ knownQueueActions then exec e
  else .error ("Unsupported queue action: " ++ e.action)

/-- Embeds the for loop of QueueWorker.run (gui lines 181-234): announce
the current and next target, dispatch, emit item-finished on success and
continue; a raise leaves the loop with the pending message. -/
def queueLoop (exec : QueueEntry → Except String Unit) :
    List QueueEntry → List QueueSignal × Option String
  | [] => ([], none)
  | e :: rest =>
    let nextT := match rest with
      | [] => "(none)"
      | e2 :: _ => e2.target
    match dispatchQueueEntry exec e with
    | .error msg => ([.queuePosition e.target nextT], some msg)
    | .ok _ =>
      let r := queueLoop exec rest
      (.queuePosition e.target nextT :: .itemFinished e.target :: r.1, r.2)

/-- Embeds QueueWorker.run (gui lines 176-238): the loop inside a try
whose except emits the failure message and whose finally always emits the
terminal finished signal. -/
def runQueue (exec : QueueEntry → Except String Unit) (entries : List QueueEntry) :
    List QueueSignal :=
  let r := queueLoop exec entries
  r.1 ++ (match r.2 with
    | some m => [.failed m]
    | none => []) ++ [.finished]

/-- The targets of the item-finished signals, in emission order. -/
def finishedTargets (sigs : List QueueSignal) : List String :=
  sigs.filterMap (fun s => match s with
    | .itemFinished t => some t
    | _ => none)

/-- Whether a dispatch completed without raising. -/
def exceptIsOk {ε α : Type} : Except ε α → Bool
  | .ok _ => true
  | .error _ => false

theorem queueLoop_count_finished (exec : QueueEntry → Except String Unit)
    (entries : List QueueEntry) :
    (queueLoop exec entries).1.count QueueSignal.finished = 0 := by
  induction entries with
  | nil => rfl
  | cons e rest ih =>
    cases hd : dispatchQueueEntry exec e with
    | error msg => simp [queueLoop, hd, List.count_cons]
    | ok v => simp [queueLoop, hd, List.count_cons, ih]

theorem finishedTargets_runQueue (exec : QueueEntry → Except String Unit)
    (entries : List QueueEntry) :
    finishedTargets (runQueue exec entries)
      = finishedTargets (queueLoop exec entries).1 := by
  unfold runQueue finishedTargets
  cases h : (queueLoop exec entries).2 with
  | none => simp [h, List.filterMap_append]
  | some m => simp [h, List.filterMap_append]

/-- Claim C9: the Queue Runner processes items strictly in order — when
every item before some failing item dispatches cleanly, exactly the
earlier items finish, in order, and nothing after the failure runs; the
terminal finished signal is emitted exactly once in all cases; and an
unrecognized action tag raises, so it too stops the queue. -/
theorem queue_runner_ordered_fatal_finished :
    (∀ (exec : QueueEntry → Except String Unit) (entries : List QueueEntry),
      (runQueue exec entries).count QueueSignal.finished = 1)
    ∧ (∀ (exec : QueueEntry → Except String Unit) (pre : List QueueEntry)
        (e : QueueEntry) (post : List QueueEntry),
        (∀ x ∈ pre, exceptIsOk (dispatchQueueEntry exec x) = true) →
        exceptIsOk (dispatchQueueEntry exec e) = false →
        finishedTargets (runQueue exec (pre ++ e :: post)) = pre.map QueueEntry.target)
    ∧ (∀ (exec : QueueEntry → Except String Unit) (e : QueueEntry),
        ¬ (e.action ∈ knownQueueActions) →
        exceptIsOk (dispatchQueueEntry exec e) = false) := by
  refine ⟨?_, ?_, ?_⟩
  · intro exec entries
    unfold runQueue
    cases h : (queueLoop exec entries).2 with
    | none =>
      simp [h, List.count_append, queueLoop_count_finished]
    | some m =>
      simp [h, List.count_append, queueLoop_count_finished, List.count_cons]
  · intro exec pre e post hpre he
    rw [finishedTargets_runQueue]
    induction pre with
    | nil =>
      cases hd : dispatchQueueEntry exec e with
      | ok v => rw [hd] at he; cases he
      | error msg => simp [queueLoop, hd, finishedTargets]
    | cons x rest ih =>
      have hx := hpre x (List.mem_cons_self _ _)
      cases hd : dispatchQueueEntry exec x with
      | error msg => rw [hd] at hx; cases hx
      | ok v =>
        have hrest : ∀ y ∈ rest, exceptIsOk (dispatchQueueEntry exec y) = true :=
          fun y hy => hpre y (List.mem_cons_of_mem _ hy)
        simp only [List.cons_append, queueLoop, hd]
        simpa [finishedTargets] using ih hrest
  · intro exec e hact
    unfold dispatchQueueEntry
    rw [if_neg hact]
    rfl

/-- The executor of the witness run: the middle target raises, the
others complete. -/
def c9Exec : QueueEntry → Except String Unit :=
  fun e => if e.target = "bad" then .error "boom" else .ok ()

/-- Witness for claim C9 at a three-item queue whose middle item raises,
and at an item with an unrecognized action tag. -/
theorem queue_runner_witness :
    (runQueue c9Exec [⟨"a", "pull", false⟩, ⟨"bad", "push", false⟩,
        ⟨"c", "pull", false⟩]).count QueueSignal.finished = 1
    ∧ finishedTargets (runQueue c9Exec
        ([⟨"a", "pull", false⟩] ++ ⟨"bad", "push", false⟩ :: [⟨"c", "pull", false⟩]))
        = [(⟨"a", "pull", false⟩ : QueueEntry)].map QueueEntry.target
    ∧ exceptIsOk (dispatchQueueEntry c9Exec ⟨"x", "frobnicate", false⟩) = false :=
  ⟨queue_runner_ordered_fatal_finished.1 c9Exec _,
   queue_runner_ordered_fatal_finished.2.1 c9Exec [⟨"a", "pull", false⟩]
     ⟨"bad", "push", false⟩ [⟨"c", "pull", false⟩] (by decide) (by decide),
   queue_runner_ordered_fatal_finished.2.2 c9Exec ⟨"x", "frobnicate", false⟩ (by decide)⟩

end ApBackup
